import Mathlib

/-!
Verification development for the stale-assignee digest system of the
openlibrary repository.  The GitHub Actions workflow
`.github/workflows/stale_assignee_digest.yml` is embedded as explicit data
below.  The digest job itself (the script
`scripts/gh_scripts/stale_assignee_digest.mjs` invoked by the workflow) is
not among the visible sources, so its components (IssueSource, StaleFilter,
DigestAggregator, Notifier, DigestJob) are modelled from the design
specification.
-/

namespace StaleDigest

/-- A five-field cron schedule entry; `none` is the wildcard `*`. -/
structure CronSchedule where
  minute : Option Nat
  hour : Option Nat
  dayOfMonth : Option Nat
  month : Option Nat
  dayOfWeek : Option Nat
deriving DecidableEq

/-- Whether a concrete field value satisfies a cron field. -/
def fieldMatches : Option Nat → Nat → Bool
  | none, _ => true
  | some x, v => x == v

def minutesPerDay : Nat := 1440

def minutesPerWeek : Nat := 10080

/-- A Gregorian civil date. -/
structure CivilDate where
  year : Nat
  month : Nat
  day : Nat
deriving DecidableEq

/-- Civil date from a count of days since 1970-01-01 (proleptic Gregorian,
standard era-based conversion). -/
def civilFromDays (z : Nat) : CivilDate :=
  let days := z + 719468
  let era := days / 146097
  let doe := days % 146097
  let yoe := (doe - doe / 1460 + doe / 36524 - doe / 146096) / 365
  let y := yoe + era * 400
  let doy := doe - (365 * yoe + yoe / 4 - yoe / 100)
  let mp := (5 * doy + 2) / 153
  let d := doy - (153 * mp + 2) / 5 + 1
  let m := if mp < 10 then mp + 3 else mp - 9
  { year := y + (if m ≤ 2 then 1 else 0), month := m, day := d }

/-- Cron semantics over minutes since the Unix epoch (1970-01-01 was a
Thursday, day-of-week 4 in cron numbering where 0 is Sunday). -/
def cronMatches (c : CronSchedule) (t : Nat) : Bool :=
  fieldMatches c.minute (t % 60) &&
  fieldMatches c.hour (t / 60 % 24) &&
  fieldMatches c.dayOfMonth (civilFromDays (t / minutesPerDay)).day &&
  fieldMatches c.month (civilFromDays (t / minutesPerDay)).month &&
  fieldMatches c.dayOfWeek ((t / minutesPerDay + 4) % 7)

/-- The cron expression of the workflow: `0 16 * * 1`. -/
def staleDigestCron : CronSchedule :=
  { minute := some 0, hour := some 16, dayOfMonth := none, month := none,
    dayOfWeek := some 1 }

/-- Trigger block of a workflow: schedule entries and whether manual
dispatch is enabled, together with its declared inputs. -/
structure WorkflowTriggers where
  schedules : List CronSchedule
  hasWorkflowDispatch : Bool
  workflowDispatchInputs : List String
deriving DecidableEq

/-- The `on:` block of `stale_assignee_digest.yml`: one weekly cron entry
plus `workflow_dispatch` with no declared inputs. -/
def staleDigestTriggers : WorkflowTriggers :=
  { schedules := [staleDigestCron],
    hasWorkflowDispatch := true,
    workflowDispatchInputs := [] }

/-- The `if:` condition of the job `stale_assignee_digest`. -/
def staleDigestJobCondition (repository : String) : Bool :=
  repository == "internetarchive/openlibrary"

/-- The two kinds of triggering events the workflow declares. -/
inductive TriggerEvent
  | scheduled (t : Nat)
  | dispatched
deriving DecidableEq

/-- Whether the job body executes for a given event in a given repository:
the only gate is the job-level `if:` condition, which ignores the event. -/
def jobExecutes (_e : TriggerEvent) (repository : String) : Bool :=
  staleDigestJobCondition repository

/-- Command-line arguments of the run step, as flag-value pairs:
`--repoOwner "internetarchive" --daysSince 14`. -/
def staleDigestRunArgs : List (String × String) :=
  [("repoOwner", "internetarchive"), ("daysSince", "14")]

/-- The arguments the workflow passes to the digest script for a given
trigger event; the run line contains no event-dependent interpolation, so
every event is invoked with the same fixed arguments. -/
def invokedArgs : TriggerEvent → List (String × String) :=
  fun _ => staleDigestRunArgs

/-- One environment entry of the run step: variable name, the secrets
reference it is bound to, and whether the bound secret is an opaque bearer
token (a credential) as opposed to a plain configuration value such as a
channel identifier. -/
structure EnvEntry where
  name : String
  secretRef : String
  isBearerToken : Bool
deriving DecidableEq

/-- The `env:` block of the run step: the tracker token, the messaging
token, and the (non-credential) messaging channel identifier. -/
def staleDigestEnv : List EnvEntry :=
  [⟨"GITHUB_TOKEN", "secrets.GITHUB_TOKEN", true⟩,
   ⟨"SLACK_TOKEN", "secrets.SLACK_TOKEN", true⟩,
   ⟨"SLACK_CHANNEL", "secrets.SLACK_CHANNEL_ABC_TEAM_PLUS", false⟩]

/-- Milliseconds per day, the unit conversion for day-based thresholds. -/
def dayMs : Int := 86400000

/-- Modelled from the spec: an issue record fetched from the tracker, with
identifier, title, creation timestamp, optional assignee identifier,
last-updated timestamp and URL.  Timestamps are milliseconds since the
epoch. -/
structure Issue where
  id : Nat
  title : String
  createdAt : Int
  assignee : Option String
  lastUpdated : Int
  url : String
deriving DecidableEq

/-- Modelled from the spec: the pure staleness predicate of StaleFilter,
true iff `now - issue.lastUpdated` is at least `thresholdDays` days. -/
def StaleFilter.isStale (issue : Issue) (now : Int) (thresholdDays : Int) : Bool :=
  thresholdDays * dayMs ≤ now - issue.lastUpdated

/-- Modelled from the spec: a stale entry pairs an issue with its computed
idle duration. -/
structure StaleEntry where
  issue : Issue
  idle : Int
deriving DecidableEq

/-- Grouping key of an entry: its issue's assignee identifier (unassigned
issues are excluded before StaleFilter runs, so the default is inert). -/
def StaleEntry.assigneeId (e : StaleEntry) : String :=
  e.issue.assignee.getD ""

/-- Modelled from the spec: StaleFilter keeps the assigned, stale issues
and records each one's idle duration. -/
def StaleFilter.apply (issues : List Issue) (now thresholdDays : Int) : List StaleEntry :=
  (issues.filter fun i => i.assignee.isSome && StaleFilter.isStale i now thresholdDays).map
    fun i => ⟨i, now - i.lastUpdated⟩

/-- Modelled from the spec: run metadata carried into the digest payload. -/
structure DigestMetadata where
  generatedAt : Int
  thresholdDays : Int
deriving DecidableEq

/-- Modelled from the spec: the digest payload, an ordered sequence of
assignee groups plus run metadata and total count. -/
structure DigestPayload where
  groups : List (String × List StaleEntry)
  generatedAt : Int
  thresholdDays : Int
  totalCount : Nat
deriving DecidableEq

/-- Ordering of entries inside one assignee group: idle duration
descending, ties broken by issue identifier ascending. -/
def entryOrder (a b : StaleEntry) : Prop :=
  b.idle < a.idle ∨ (a.idle = b.idle ∧ a.issue.id ≤ b.issue.id)

instance : DecidableRel entryOrder := fun a b =>
  inferInstanceAs (Decidable (b.idle < a.idle ∨ (a.idle = b.idle ∧ a.issue.id ≤ b.issue.id)))

instance : IsTotal StaleEntry entryOrder :=
  ⟨by intro a b; unfold entryOrder; omega⟩

instance : IsTrans StaleEntry entryOrder :=
  ⟨by intro a b c hab hbc; unfold entryOrder at hab hbc ⊢; omega⟩

/-- Modelled from the spec: DigestAggregator.build groups entries by
assignee identifier (group keys in ascending order), sorts each group by
idle duration descending with ties by issue identifier ascending, and
attaches the run metadata and the total entry count. -/
def DigestAggregator.build (entries : List StaleEntry) (meta : DigestMetadata) : DigestPayload :=
  { groups :=
      (((entries.map StaleEntry.assigneeId).dedup.insertionSort (· ≤ ·)).map
        fun a => (a, List.insertionSort entryOrder
          (entries.filter fun e => e.assigneeId = a))),
    generatedAt := meta.generatedAt,
    thresholdDays := meta.thresholdDays,
    totalCount := entries.length }

/-- Serialization of one entry line of the digest. -/
def renderEntry (e : StaleEntry) : String :=
  "- " ++ e.issue.url ++ " | " ++ e.issue.title ++ " | idle ms: " ++ toString e.idle

/-- Serialization of one assignee group of the digest. -/
def renderGroup (g : String × List StaleEntry) : String :=
  "Assignee: " ++ g.1 ++ "\n" ++ String.intercalate "\n" (g.2.map renderEntry)

/-- Serialization of the whole digest payload to the delivered text. -/
def render (p : DigestPayload) : String :=
  "Stale assignee digest\n" ++
  "generated at ms: " ++ toString p.generatedAt ++ "\n" ++
  "threshold days: " ++ toString p.thresholdDays ++ "\n" ++
  "total: " ++ toString p.totalCount ++ "\n" ++
  String.intercalate "\n\n" (p.groups.map renderGroup)

/-- Modelled from the spec: the error taxonomy of the job. -/
inductive JobError
  | sourceUnavailable
  | rateLimited
  | channelUnavailable
  | malformedData
deriving DecidableEq

/-- Modelled from the spec: the outcome of one Notifier.send attempt. -/
inductive DeliveryResult
  | delivered
  | rateLimited
  | channelUnavailable
deriving DecidableEq

/-- Modelled from the spec: the issue tracker as seen by IssueSource —
a page count and, for every page and retry attempt, either that page's
issues or a failure. -/
structure SourceOracle where
  numPages : Nat
  attempt : Nat → Nat → Option (List Issue)

/-- Modelled from the spec: fetch one page, retrying a bounded number of
times; `retryBound` extra attempts after the first. -/
def IssueSource.fetchPage (src : SourceOracle) (retryBound : Nat) (page : Nat) :
    Option (List Issue) :=
  (List.range (retryBound + 1)).findSome? (src.attempt page)

/-- Modelled from the spec: fetch the listed pages in order; if any page
exhausts its retries the whole fetch fails with `sourceUnavailable`. -/
def IssueSource.fetchPagesFrom (src : SourceOracle) (retryBound : Nat) :
    List Nat → Except JobError (List Issue)
  | [] => .ok []
  | p :: ps =>
    match IssueSource.fetchPage src retryBound p with
    | none => .error .sourceUnavailable
    | some pageIssues =>
      match IssueSource.fetchPagesFrom src retryBound ps with
      | .error e => .error e
      | .ok rest => .ok (pageIssues ++ rest)

/-- Modelled from the spec: `fetchOpenIssues` walks all pages of the scope
and concatenates them, or fails as `sourceUnavailable`. -/
def IssueSource.fetchOpenIssues (src : SourceOracle) (retryBound : Nat) :
    Except JobError (List Issue) :=
  IssueSource.fetchPagesFrom src retryBound (List.range src.numPages)

/-- Result of the notification phase: number of send attempts, backoff
waits performed, and the final outcome. -/
structure NotifyResult where
  attempts : Nat
  waitsMs : List Nat
  outcome : Except JobError Unit

/-- The fixed backoff delay before the single retry after `RateLimited`. -/
def fixedBackoffMs : Nat := 30000

/-- Modelled from the spec: DigestJob's send policy over Notifier.send —
`RateLimited` triggers exactly one retry after a fixed backoff and is fatal
if it recurs; `ChannelUnavailable` is fatal at once.  The oracle gives the
outcome of each successive send attempt. -/
def DigestJob.sendWithRetry (oracle : Nat → DeliveryResult) : NotifyResult :=
  match oracle 0 with
  | .delivered => ⟨1, [], .ok ()⟩
  | .channelUnavailable => ⟨1, [], .error .channelUnavailable⟩
  | .rateLimited =>
    match oracle 1 with
    | .delivered => ⟨2, [fixedBackoffMs], .ok ()⟩
    | .rateLimited => ⟨2, [fixedBackoffMs], .error .rateLimited⟩
    | .channelUnavailable => ⟨2, [fixedBackoffMs], .error .channelUnavailable⟩

/-- Observable outcome of one job run: process exit code, number of
Notifier.send attempts issued, and the reported error, if any. -/
structure JobOutcome where
  exitCode : Nat
  sendAttempts : Nat
  reported : Option JobError
deriving DecidableEq

/-- Modelled from the spec: the DigestJob orchestration — fetch, filter,
aggregate, then notify unless the payload is empty; any fetch failure is
fatal with a non-zero exit and no send attempt. -/
def DigestJob.run (src : SourceOracle) (retryBound : Nat)
    (noracle : Nat → DeliveryResult) (now thresholdDays : Int) : JobOutcome :=
  match IssueSource.fetchOpenIssues src retryBound with
  | .error e => ⟨1, 0, some e⟩
  | .ok issues =>
    let entries := StaleFilter.apply issues now thresholdDays
    let payload := DigestAggregator.build entries ⟨now, thresholdDays⟩
    if payload.groups.isEmpty then ⟨0, 0, none⟩
    else
      let r := DigestJob.sendWithRetry noracle
      match r.outcome with
      | .ok _ => ⟨0, r.attempts, none⟩
      | .error e => ⟨1, r.attempts, some e⟩

/-- Modelled from the spec: the entry point receives the two opaque bearer
tokens from the environment and forwards them to the collaborators without
examining them; the core computation does not depend on their values. -/
def DigestJob.runWithTokens (_trackerToken _messagingToken : String)
    (src : SourceOracle) (retryBound : Nat) (noracle : Nat → DeliveryResult)
    (now thresholdDays : Int) : JobOutcome :=
  DigestJob.run src retryBound noracle now thresholdDays

/-- Fixture: an assigned issue last updated at the epoch. -/
def sampleIssue : Issue :=
  ⟨1, "Fix search indexing", 0, some "alice", 0, "https://example.org/issue/1"⟩

/-- Fixture: an assigned issue used for the staleness boundary. -/
def boundaryIssue : Issue :=
  ⟨2, "Update docs", 0, some "bob", 1, "https://example.org/issue/2"⟩

/-- Fixture: two stale entries for distinct issues. -/
def sampleEntries : List StaleEntry :=
  [⟨sampleIssue, 20⟩, ⟨boundaryIssue, 10⟩]

/-- Fixture: metadata for witness instantiations. -/
def sampleMeta : DigestMetadata := ⟨100, 14⟩

/-- Fixture: a one-page source that always answers. -/
def sampleSource : SourceOracle := ⟨1, fun _ _ => some [sampleIssue]⟩

/-- Fixture: a two-page source whose second page always fails. -/
def failingSource : SourceOracle :=
  ⟨2, fun p _ => if p = 0 then some [sampleIssue] else none⟩

/-- Fixture: a source with no pages at all. -/
def emptySource : SourceOracle := ⟨0, fun _ _ => none⟩

/-- Fixture: a notifier that is rate limited once and then delivers. -/
def rateLimitThenOk : Nat → DeliveryResult :=
  fun n => if n = 0 then .rateLimited else .delivered

/-- Fixture: a notifier that is rate limited on every attempt. -/
def rateLimitTwice : Nat → DeliveryResult := fun _ => .rateLimited

/-- Splitting a list into the filter groups of a duplicate-free key list
that covers it is a permutation of the list. -/
theorem partition_flatten_perm {α β : Type} [DecidableEq β] (k : α → β) :
    ∀ (keys : List β) (l : List α), keys.Nodup → (∀ x ∈ l, k x ∈ keys) →
      ((keys.map fun b => l.filter fun x => k x = b).flatten).Perm l := by
  intro keys
  induction keys with
  | nil =>
    intro l _ hcov
    have hl : l = [] := by
      apply List.eq_nil_iff_forall_not_mem.mpr
      intro a ha
      exact absurd (hcov a ha) (List.not_mem_nil _)
    subst hl
    simp
  | cons b ks ih =>
    intro l hnd hcov
    have hb : b ∉ ks := (List.nodup_cons.mp hnd).1
    have hnd' : ks.Nodup := (List.nodup_cons.mp hnd).2
    have hfilters : ∀ c ∈ ks, (l.filter fun x => k x = c)
        = ((l.filter fun x => !decide (k x = b)).filter fun x => k x = c) := by
      intro c hc
      have hcb : c ≠ b := fun h => hb (h ▸ hc)
      rw [List.filter_filter]
      refine (List.filter_congr ?_).symm
      intro x _
      by_cases h : k x = c
      · simp [h, hcb]
      · simp [h]
    have hmapeq : (ks.map fun c => l.filter fun x => k x = c)
        = ks.map fun c => (l.filter fun x => !decide (k x = b)).filter
            fun x => k x = c :=
      List.map_congr_left hfilters
    have hcov' : ∀ x ∈ (l.filter fun x => !decide (k x = b)), k x ∈ ks := by
      intro x hx
      rw [List.mem_filter] at hx
      have h1 := hcov x hx.1
      have h2 : ¬ k x = b := by simpa using hx.2
      rcases List.mem_cons.mp h1 with h | h
      · exact absurd h h2
      · exact h
    have ihp := ih (l.filter fun x => !decide (k x = b)) hnd' hcov'
    have hstep : ((b :: ks).map fun c => l.filter fun x => k x = c).flatten
        = (l.filter fun x => k x = b)
          ++ (ks.map fun c => (l.filter fun x => !decide (k x = b)).filter
                fun x => k x = c).flatten := by
      simp [hmapeq]
    rw [hstep]
    exact List.Perm.trans (List.Perm.append (List.Perm.refl _) ihp)
      (List.filter_append_perm _ l)

/-- Flattening pointwise-permuted groups yields permuted flattenings. -/
theorem flatten_map_perm_of_perm {α β : Type} (f g : β → List α)
    (h : ∀ b, (f b).Perm (g b)) :
    ∀ keys : List β, ((keys.map f).flatten).Perm ((keys.map g).flatten) := by
  intro keys
  induction keys with
  | nil => simp
  | cons b ks ih => simpa using (h b).append ih

/-- The concatenation of the groups `DigestAggregator.build` produces is a
permutation of the input entry list. -/
theorem build_flatten_perm (entries : List StaleEntry) (meta : DigestMetadata) :
    (((DigestAggregator.build entries meta).groups.map Prod.snd).flatten).Perm entries := by
  have hsnd : ((DigestAggregator.build entries meta).groups.map Prod.snd)
      = ((entries.map StaleEntry.assigneeId).dedup.insertionSort (· ≤ ·)).map
          fun a => List.insertionSort entryOrder
            (entries.filter fun e => e.assigneeId = a) := by
    simp [DigestAggregator.build, List.map_map, Function.comp]
  rw [hsnd]
  have h1 := flatten_map_perm_of_perm
    (fun a => List.insertionSort entryOrder (entries.filter fun e => e.assigneeId = a))
    (fun a => entries.filter fun e => e.assigneeId = a)
    (fun _ => List.perm_insertionSort _ _)
    ((entries.map StaleEntry.assigneeId).dedup.insertionSort (· ≤ ·))
  refine h1.trans ?_
  have hkeys : ((((entries.map StaleEntry.assigneeId).dedup.insertionSort (· ≤ ·)).map
      fun a => entries.filter fun e => e.assigneeId = a)).Perm
      ((((entries.map StaleEntry.assigneeId).dedup).map
      fun a => entries.filter fun e => e.assigneeId = a)) :=
    (List.perm_insertionSort _ _).map _
  refine hkeys.flatten.trans ?_
  exact partition_flatten_perm StaleEntry.assigneeId _ entries
    (List.nodup_dedup _)
    (fun x hx => List.mem_dedup.mpr (List.mem_map_of_mem _ hx))

/-- The aggregated payload has no groups exactly when the entry list is
empty. -/
theorem build_groups_eq_nil_iff (entries : List StaleEntry) (meta : DigestMetadata) :
    (DigestAggregator.build entries meta).groups = [] ↔ entries = [] := by
  simp only [DigestAggregator.build]
  rw [List.map_eq_nil_iff]
  constructor
  · intro h
    have hperm := List.perm_insertionSort ((· ≤ ·) : String → String → Prop)
      (entries.map StaleEntry.assigneeId).dedup
    rw [h] at hperm
    have hd : (entries.map StaleEntry.assigneeId).dedup = [] := hperm.symm.eq_nil
    have hm : entries.map StaleEntry.assigneeId = [] := (List.dedup_eq_nil _).mp hd
    exact List.map_eq_nil_iff.mp hm
  · intro h
    subst h
    simp

/-- If some listed page cannot be fetched, the whole paged fetch fails
with `sourceUnavailable`. -/
theorem fetchPagesFrom_error_of_mem (src : SourceOracle) (r p : Nat)
    (hp : IssueSource.fetchPage src r p = none) :
    ∀ ps : List Nat, p ∈ ps →
      IssueSource.fetchPagesFrom src r ps = .error .sourceUnavailable := by
  intro ps
  induction ps with
  | nil => intro h; exact absurd h (List.not_mem_nil _)
  | cons q qs ih =>
    intro hmem
    by_cases hq : IssueSource.fetchPage src r q = none
    · simp [IssueSource.fetchPagesFrom, hq]
    · rcases List.mem_cons.mp hmem with h | h
      · exact absurd (h ▸ hp) hq
      · obtain ⟨v, hv⟩ := Option.ne_none_iff_exists'.mp hq
        simp [IssueSource.fetchPagesFrom, hv, ih h]

/-- C1: The job is invoked on a fixed weekly schedule (the single cron
entry fires exactly once per week, at a fixed minute of the week) or
on-demand via workflow dispatch, and every invocation carries the two
external parameters: the organization scope and the inactivity threshold
in days. -/
theorem claim_C1 :
    staleDigestTriggers.schedules = [staleDigestCron]
    ∧ (∀ t : Nat, cronMatches staleDigestCron t = true ↔ t % minutesPerWeek = 6720)
    ∧ staleDigestTriggers.hasWorkflowDispatch = true
    ∧ staleDigestRunArgs.map Prod.fst = ["repoOwner", "daysSince"] := by
  refine ⟨rfl, ?_, rfl, rfl⟩
  intro t
  simp [cronMatches, staleDigestCron, fieldMatches, minutesPerDay, minutesPerWeek]
  omega

/-- C2: `isStale` is true exactly when the idle duration reaches the
threshold, and false whenever the idle duration falls short of the
threshold by any positive epsilon. -/
theorem claim_C2 (i : Issue) (now T : Int) :
    (StaleFilter.isStale i now T = true ↔ now - i.lastUpdated ≥ T * dayMs)
    ∧ ∀ eps : Int, 0 < eps → now - i.lastUpdated = T * dayMs - eps →
        StaleFilter.isStale i now T = false := by
  constructor
  · simp [StaleFilter.isStale]
  · intro eps heps heq
    simp only [dayMs] at heq
    simp [StaleFilter.isStale, dayMs]
    omega

/-- Witness for C2 at the boundary: threshold one day, idle duration one
millisecond short of one day, epsilon one millisecond. -/
theorem claim_C2_witness : StaleFilter.isStale boundaryIssue 86400000 1 = false :=
  (claim_C2 boundaryIssue 86400000 1).2 1 (by decide) (by decide)

/-- C8: The execution environment supplies exactly two opaque bearer
tokens — the tracker token and the messaging token — and the core's
observable outcome is independent of the token values. -/
theorem claim_C8 :
    (staleDigestEnv.filter (fun kv => kv.isBearerToken)).map EnvEntry.name
      = ["GITHUB_TOKEN", "SLACK_TOKEN"]
    ∧ ∀ (tok1 tok2 tok1' tok2' : String) (src : SourceOracle) (r : Nat)
        (noracle : Nat → DeliveryResult) (now days : Int),
        DigestJob.runWithTokens tok1 tok2 src r noracle now days
          = DigestJob.runWithTokens tok1' tok2' src r noracle now days :=
  ⟨rfl, fun _ _ _ _ _ _ _ _ _ => rfl⟩

/-- C9: For every trigger event, the digest job executes exactly when the
repository is internetarchive/openlibrary; in any other repository it is
never executed. -/
theorem claim_C9 (e : TriggerEvent) (repository : String) :
    jobExecutes e repository = true ↔ repository = "internetarchive/openlibrary" := by
  simp [jobExecutes, staleDigestJobCondition]

/-- C10: The workflow dispatch trigger declares no inputs, and every
trigger event invokes the digest script with the identical fixed arguments
repoOwner internetarchive and daysSince 14. -/
theorem claim_C10 :
    staleDigestTriggers.workflowDispatchInputs = []
    ∧ ∀ e : TriggerEvent, invokedArgs e
        = [("repoOwner", "internetarchive"), ("daysSince", "14")] :=
  ⟨rfl, fun _ => rfl⟩

/-- C3: DigestAggregator.build is deterministic and idempotent — building
twice from the same entries and metadata yields equal payloads and
byte-identical serializations — with groups ordered by assignee identifier
and, within each group, entries sorted by idle duration descending, ties
broken by issue identifier ascending. -/
theorem claim_C3 (entries : List StaleEntry) (meta : DigestMetadata) :
    DigestAggregator.build entries meta = DigestAggregator.build entries meta
    ∧ render (DigestAggregator.build entries meta)
        = render (DigestAggregator.build entries meta)
    ∧ List.Sorted (· < ·) ((DigestAggregator.build entries meta).groups.map Prod.fst)
    ∧ List.Forall (fun g => List.Sorted entryOrder g.2)
        (DigestAggregator.build entries meta).groups := by
  refine ⟨rfl, rfl, ?_, ?_⟩
  · have hfst : (DigestAggregator.build entries meta).groups.map Prod.fst
        = (entries.map StaleEntry.assigneeId).dedup.insertionSort (· ≤ ·) := by
      simp only [DigestAggregator.build, List.map_map]
      exact List.map_id _
    rw [hfst]
    exact List.Sorted.lt_of_le (List.sorted_insertionSort _ _)
      ((List.perm_insertionSort _ _).nodup_iff.mpr (List.nodup_dedup _))
  · rw [List.forall_iff_forall_mem]
    intro g hg
    simp only [DigestAggregator.build] at hg
    rw [List.mem_map] at hg
    obtain ⟨a, _, rfl⟩ := hg
    exact List.sorted_insertionSort entryOrder _

/-- C4: Aggregation neither drops nor duplicates entries — the group sizes
sum to the input entry count, and if the input issues are distinct then no
issue appears twice anywhere in the assignee grouping. -/
theorem claim_C4 (entries : List StaleEntry) (meta : DigestMetadata) :
    ((DigestAggregator.build entries meta).groups.map fun g => g.2.length).sum
        = entries.length
    ∧ ((entries.map fun e => e.issue.id).Nodup →
        (((DigestAggregator.build entries meta).groups.map Prod.snd).flatten.map
            fun e => e.issue.id).Nodup) := by
  have hperm := build_flatten_perm entries meta
  constructor
  · have hlen := hperm.length_eq
    rw [List.length_flatten, List.map_map] at hlen
    simpa [Function.comp] using hlen
  · intro hnd
    exact ((hperm.map fun e => e.issue.id).nodup_iff).mpr hnd

/-- Witness for C4 on two distinct stale entries. -/
theorem claim_C4_witness :
    (((DigestAggregator.build sampleEntries sampleMeta).groups.map Prod.snd).flatten.map
        fun e => e.issue.id).Nodup :=
  (claim_C4 sampleEntries sampleMeta).2 (by decide)

/-- C5: An empty entry list yields a payload with zero groups, and a run
whose filtered entry list is empty exits zero without any Notifier.send
attempt. -/
theorem claim_C5 (meta : DigestMetadata) (src : SourceOracle) (retryBound : Nat)
    (noracle : Nat → DeliveryResult) (now days : Int) (issues : List Issue)
    (hfetch : IssueSource.fetchOpenIssues src retryBound = .ok issues)
    (hempty : StaleFilter.apply issues now days = []) :
    (DigestAggregator.build [] meta).groups = []
    ∧ DigestJob.run src retryBound noracle now days = ⟨0, 0, none⟩ := by
  refine ⟨(build_groups_eq_nil_iff [] meta).mpr rfl, ?_⟩
  have hnil : (DigestAggregator.build ([] : List StaleEntry)
      ⟨now, days⟩).groups = [] :=
    (build_groups_eq_nil_iff _ _).mpr rfl
  simp [DigestJob.run, hfetch, hempty, hnil]

/-- Witness for C5: a source with no pages fetches an empty issue list and
the job exits zero with no send attempts. -/
theorem claim_C5_witness :
    DigestJob.run emptySource 0 rateLimitThenOk 100 14 = ⟨0, 0, none⟩ :=
  (claim_C5 ⟨100, 14⟩ emptySource 0 rateLimitThenOk 100 14 [] rfl rfl).2

/-- C6: A RateLimited delivery triggers exactly one retry after the fixed
backoff: if the retry delivers, the run succeeds with exactly two send
attempts; if RateLimited recurs, the run fails fatally after exactly two
send attempts. -/
theorem claim_C6 (src : SourceOracle) (retryBound : Nat)
    (noracle : Nat → DeliveryResult) (now days : Int) (issues : List Issue)
    (hfetch : IssueSource.fetchOpenIssues src retryBound = .ok issues)
    (hne : StaleFilter.apply issues now days ≠ []) :
    (noracle 0 = .rateLimited ∧ noracle 1 = .delivered →
      DigestJob.sendWithRetry noracle = ⟨2, [fixedBackoffMs], .ok ()⟩
      ∧ DigestJob.run src retryBound noracle now days = ⟨0, 2, none⟩)
    ∧ (noracle 0 = .rateLimited ∧ noracle 1 = .rateLimited →
      DigestJob.sendWithRetry noracle = ⟨2, [fixedBackoffMs], .error .rateLimited⟩
      ∧ DigestJob.run src retryBound noracle now days = ⟨1, 2, some .rateLimited⟩) := by
  have hgroups : ((DigestAggregator.build (StaleFilter.apply issues now days)
      ⟨now, days⟩).groups).isEmpty = false :=
    List.isEmpty_eq_false.mpr (fun h => hne ((build_groups_eq_nil_iff _ _).mp h))
  constructor
  · rintro ⟨h0, h1⟩
    have hsend : DigestJob.sendWithRetry noracle = ⟨2, [fixedBackoffMs], .ok ()⟩ := by
      simp [DigestJob.sendWithRetry, h0, h1]
    refine ⟨hsend, ?_⟩
    simp [DigestJob.run, hfetch, hgroups, hsend]
  · rintro ⟨h0, h1⟩
    have hsend : DigestJob.sendWithRetry noracle
        = ⟨2, [fixedBackoffMs], .error .rateLimited⟩ := by
      simp [DigestJob.sendWithRetry, h0, h1]
    refine ⟨hsend, ?_⟩
    simp [DigestJob.run, hfetch, hgroups, hsend]

/-- Witness for C6: with one stale issue fetched, a rate-limit answered by
a successful retry gives exit zero after two attempts, and a recurring
rate-limit gives a fatal exit after two attempts. -/
theorem claim_C6_witness :
    DigestJob.run sampleSource 0 rateLimitThenOk 1209600000 14 = ⟨0, 2, none⟩
    ∧ DigestJob.run sampleSource 0 rateLimitTwice 1209600000 14
        = ⟨1, 2, some .rateLimited⟩ :=
  ⟨((claim_C6 sampleSource 0 rateLimitThenOk 1209600000 14 [sampleIssue]
      rfl (by decide)).1 ⟨rfl, rfl⟩).2,
   ((claim_C6 sampleSource 0 rateLimitTwice 1209600000 14 [sampleIssue]
      rfl (by decide)).2 ⟨rfl, rfl⟩).2⟩

/-- C7: If any page exhausts its bounded retries, the whole fetch fails as
SourceUnavailable and the job terminates fatally with a non-zero exit and
zero Notifier.send attempts. -/
theorem claim_C7 (src : SourceOracle) (retryBound : Nat)
    (noracle : Nat → DeliveryResult) (now days : Int) (p : Nat)
    (hp : p < src.numPages)
    (hfail : ∀ t, t ≤ retryBound → src.attempt p t = none) :
    IssueSource.fetchOpenIssues src retryBound = .error .sourceUnavailable
    ∧ DigestJob.run src retryBound noracle now days
        = ⟨1, 0, some .sourceUnavailable⟩ := by
  have hpage : IssueSource.fetchPage src retryBound p = none := by
    apply List.findSome?_eq_none_iff.mpr
    intro t ht
    have htl := List.mem_range.mp ht
    exact hfail t (by omega)
  have hfetch : IssueSource.fetchOpenIssues src retryBound
      = .error .sourceUnavailable :=
    fetchPagesFrom_error_of_mem src retryBound p hpage _ (List.mem_range.mpr hp)
  refine ⟨hfetch, ?_⟩
  simp [DigestJob.run, hfetch]

/-- Witness for C7: a two-page source whose second page always fails makes
the run fail as SourceUnavailable with no send attempts. -/
theorem claim_C7_witness :
    DigestJob.run failingSource 2 rateLimitThenOk 100 14
        = ⟨1, 0, some .sourceUnavailable⟩ :=
  (claim_C7 failingSource 2 rateLimitThenOk 100 14 1 (by decide)
    (fun _ _ => rfl)).2

end StaleDigest
